import Mathlib

/-!
Verification development for the Arcani intranet bot's cross-server
security-request lifecycle.  The definitions below are a shallow embedding of
the JavaScript sources: the Sequelize models become Lean structures, the
database tables become lists keyed by their primary key, and each command or
interaction handler becomes a pure function from the relevant state to the
updated state together with the outcome it reports to the actor.  Discord-side
effects (embeds, messages, modals) are irrelevant to the persisted state and
are represented only by the boolean success flags the handlers branch on.
-/

namespace Arcani

/-- Status column of a `SecurityRequest`
(`ENUM('pending', 'responding', 'concluded')` in the model). -/
inductive RequestStatus
  | pending
  | responding
  | concluded
deriving DecidableEq, Repr

/-- Row of the `SecurityRequests` table (`security-request` model).
`responders` is the raw TEXT column holding a JSON-encoded array of user ids;
the model's getter/setter pair is embedded below as `respondersGet` and
`respondersSet`.  Timestamps are modelled as integers. -/
structure SecurityRequest where
  requestId : String
  isExternal : Bool
  requesterId : String
  requesterName : String
  location : String
  details : Option String
  contact : Option String
  securityMessageId : Option String
  externalMessageId : Option String
  status : RequestStatus
  responders : Option String
  conclusionReason : Option String
  concludedById : Option String
  concludedByName : Option String
  concludedAt : Option Int
  externalGuildId : Option String
deriving DecidableEq, Repr

/-- Row of the `ExternalServers` table (`external-server` model).
`allowedRoleIds` is the raw TEXT column holding a JSON-encoded array of role
ids, embedded accessors below.  `lastAccessed` is modelled in days. -/
structure ExternalServer where
  guildId : String
  guildName : String
  channelId : String
  isActive : Bool
  isBlacklisted : Bool
  blacklistReason : Option String
  lastAccessed : Int
  allowedRoleIds : Option String
deriving DecidableEq, Repr

/-- Row of the `ServerConfigs` table: per-server role/channel configuration.
Every reference column is nullable (absent until configured). -/
structure ServerConfig where
  serverId : String
  managerRoleId : Option String
  customerRoleId : Option String
  securityRoleId : Option String
  alertChannelId : Option String
  blacklistRoleId : Option String
deriving DecidableEq, Repr

/-! ### JSON array-of-strings serialization

Model of the `JSON.stringify` / `JSON.parse` pair as used by the
`responders` and `allowedRoleIds` column accessors, specialized to arrays of
strings.  `jsonStringifyStringArray` escapes quotes and backslashes exactly as
`JSON.stringify` does; control characters (which `JSON.stringify` would
`\u`-escape) are outside the modelled domain, which covers every identifier
the bot ever stores.  `jsonParseStringArray` is the matching parser; it
rejects malformed input with `none` where `JSON.parse` would throw. -/

/-- Escape a single character the way `JSON.stringify` renders it inside a
string literal (quote and backslash get a backslash escape). -/
def escapeChar (c : Char) : List Char :=
  if c = '"' ∨ c = '\\' then ['\\', c] else [c]

/-- Escape a character list for inclusion in a JSON string literal. -/
def escapeChars : List Char → List Char
  | [] => []
  | c :: cs => escapeChar c ++ escapeChars cs

/-- Render the items of a JSON array after the first one: each item is
preceded by a comma, and the list is closed with `]`. -/
def encodeItems : List String → List Char
  | [] => [']']
  | s :: rest => ',' :: '"' :: (escapeChars s.data ++ '"' :: encodeItems rest)

/-- Model of `JSON.stringify` on an array of strings. -/
def jsonStringifyStringArray (l : List String) : String :=
  match l with
  | [] => "[]"
  | s :: rest => String.mk ('[' :: '"' :: (escapeChars s.data ++ '"' :: encodeItems rest))

mutual

/-- Scan the body of a JSON string literal (opening quote already consumed),
accumulating unescaped characters in reverse; on the closing quote, continue
with the rest of the array. -/
def scanStr : List Char → List Char → Option (List String)
  | [], _ => none
  | c :: rest, acc =>
    if c = '\\' then
      match rest with
      | [] => none
      | c2 :: rest2 => scanStr rest2 (c2 :: acc)
    else if c = '"' then
      (scanAfter rest).map (fun items => String.mk acc.reverse :: items)
    else scanStr rest (c :: acc)
termination_by cs _ => cs.length

/-- After a completed string item: either a comma followed by the next string
item, or the closing bracket ending the whole input. -/
def scanAfter : List Char → Option (List String)
  | [] => none
  | c :: rest =>
    if c = ',' then
      match rest with
      | [] => none
      | c2 :: rest2 => if c2 = '"' then scanStr rest2 [] else none
    else if c = ']' then
      if rest.isEmpty then some [] else none
    else none
termination_by cs => cs.length

end

/-- Scan a whole JSON array of strings: empty array, or a first string item
followed by `scanAfter`. -/
def scanTop : List Char → Option (List String)
  | c :: c2 :: rest =>
    if c = '[' then
      if c2 = ']' then (if rest.isEmpty then some [] else none)
      else if c2 = '"' then scanStr rest []
      else none
    else none
  | _ => none

/-- Model of `JSON.parse` on the encodings produced for arrays of strings. -/
def jsonParseStringArray (s : String) : Option (List String) :=
  scanTop s.data

/-! ### Column accessors

Embedding of the Sequelize getter/setter pairs
(`data ? JSON.parse(data) : []` and `JSON.stringify(value)`). -/

/-- Getter of the `responders` column: unset or empty text reads as the empty
list, otherwise the stored JSON is parsed (a parse failure is absorbed to the
empty list, matching the handler's `catch` fallback). -/
def respondersGet (r : SecurityRequest) : List String :=
  match r.responders with
  | none => []
  | some s => if s = "" then [] else (jsonParseStringArray s).getD []

/-- Setter of the `responders` column: the list is stored JSON-stringified. -/
def respondersSet (r : SecurityRequest) (v : List String) : SecurityRequest :=
  { r with responders := some (jsonStringifyStringArray v) }

/-- Getter of the `allowedRoleIds` column of `ExternalServers`. -/
def allowedRoleIdsGet (s : ExternalServer) : List String :=
  match s.allowedRoleIds with
  | none => []
  | some t => if t = "" then [] else (jsonParseStringArray t).getD []

/-- Setter of the `allowedRoleIds` column of `ExternalServers`. -/
def allowedRoleIdsSet (s : ExternalServer) (v : List String) : ExternalServer :=
  { s with allowedRoleIds := some (jsonStringifyStringArray v) }

/-! ### Table primitives -/

/-- `SecurityRequest.findByPk`: look a request up by its primary key. -/
def findByPk (ledger : List SecurityRequest) (requestId : String) :
    Option SecurityRequest :=
  ledger.find? (fun r => r.requestId = requestId)

/-- Persist an in-place row mutation (`request.save()`): every row with the
given primary key is replaced by its update. -/
def updateByPk (ledger : List SecurityRequest) (requestId : String)
    (f : SecurityRequest → SecurityRequest) : List SecurityRequest :=
  ledger.map (fun r => if r.requestId = requestId then f r else r)

/-- `ExternalServer.findByPk`. -/
def findServer (registry : List ExternalServer) (guildId : String) :
    Option ExternalServer :=
  registry.find? (fun s => s.guildId = guildId)

/-! ### Interaction handlers (events/interactionCreate.js)

Each handler is embedded as a function of the ledger, returning the updated
ledger and the outcome reported to the actor.  The Discord message the embed
lives on is represented by the `embedOk`/`fieldOk` flags for the two early
"embed missing / field missing" returns that precede any database access in
the respond handler. -/

/-- Outcome of the external Respond button handler. -/
inductive RespondOutcome
  | notFound
  | embedMissing
  | fieldMissing
  | alreadyResponding
  | added
deriving DecidableEq, Repr

/-- `handleExternalRespondButton`: look the request up by id; after the embed
checks, read the current responder list; a user already present is a benign
no-op, otherwise the user is appended, `status` is set to `responding`, and
the row is saved.  Note the status assignment is unconditional: it does not
inspect the current status. -/
def handleExternalRespondButton (ledger : List SecurityRequest)
    (requestId userId : String) (embedOk fieldOk : Bool) :
    List SecurityRequest × RespondOutcome :=
  match findByPk ledger requestId with
  | none => (ledger, .notFound)
  | some req =>
    if !embedOk then (ledger, .embedMissing)
    else if !fieldOk then (ledger, .fieldMissing)
    else
      let responders := respondersGet req
      if userId ∈ responders then (ledger, .alreadyResponding)
      else
        let req' := { respondersSet req (responders ++ [userId]) with
                        status := .responding }
        (updateByPk ledger requestId (fun _ => req'), .added)

/-- Outcome of the external Conclude modal-submit handler. -/
inductive ConcludeOutcome
  | notFound
  | concludedOk
deriving DecidableEq, Repr

/-- `handleExternalConcludeModalSubmit`: look the request up by id; if found,
unconditionally set `status` to `concluded`, overwrite the four conclusion
columns, and save — before any embed is inspected.  There is no check that
the request is not already concluded. -/
def handleExternalConcludeModalSubmit (ledger : List SecurityRequest)
    (requestId reason byId byName : String) (now : Int) :
    List SecurityRequest × ConcludeOutcome :=
  match findByPk ledger requestId with
  | none => (ledger, .notFound)
  | some _ =>
    (updateByPk ledger requestId (fun r =>
        { r with status := .concluded
                 conclusionReason := some reason
                 concludedById := some byId
                 concludedByName := some byName
                 concludedAt := some now }),
     .concludedOk)

/-- Outcome of the external-button branch of the interaction dispatcher. -/
inductive ButtonOutcome
  | notConfigured
  | invalidFormat
  | noPermission
  | respond (o : RespondOutcome)
  | concludeModalShown
  | unhandled
deriving DecidableEq, Repr

/-- Button branch of `execute` for `extrespond_`/`extconclude_` custom ids:
requires a configured security role, a three-part custom id, and the actor
holding the security role; `extrespond` runs the respond handler, while
`extconclude` only shows the conclusion modal (no state change). -/
def buttonExtDispatch (securityRoleId : Option String)
    (ledger : List SecurityRequest) (customIdParts : List String)
    (memberRoleIds : List String) (userId : String) (embedOk fieldOk : Bool) :
    List SecurityRequest × ButtonOutcome :=
  match securityRoleId with
  | none => (ledger, .notConfigured)
  | some secRole =>
    if customIdParts.length ≠ 3 then (ledger, .invalidFormat)
    else if ¬ secRole ∈ memberRoleIds then (ledger, .noPermission)
    else
      match customIdParts with
      | [t, requestId, _] =>
        if t = "extrespond" then
          let (l', o) := handleExternalRespondButton ledger requestId userId
            embedOk fieldOk
          (l', .respond o)
        else if t = "extconclude" then (ledger, .concludeModalShown)
        else (ledger, .unhandled)
      | _ => (ledger, .invalidFormat)

/-- Outcome of the external-conclude modal-submit branch of the dispatcher. -/
inductive ModalOutcome
  | invalidFormat
  | notFound
  | concluded
deriving DecidableEq, Repr

/-- Modal-submit branch of `execute` for `extconclude_modal_` custom ids: a
four-part custom id is parsed and the conclude handler is invoked directly.
The actor's role memberships are available to this branch (the member is
fetched to record who concluded) but no security-role check is performed
here — `actorHasSecurityRole` is accepted and never consulted, mirroring the
source. -/
def modalSubmitExtConclude (ledger : List SecurityRequest)
    (customIdParts : List String) (actorHasSecurityRole : Bool)
    (reason byId byName : String) (now : Int) :
    List SecurityRequest × ModalOutcome :=
  if customIdParts.length ≠ 4 then (ledger, .invalidFormat)
  else
    let requestId := (customIdParts.get? 2).getD ""
    match handleExternalConcludeModalSubmit ledger requestId reason byId byName now with
    | (l', .notFound) => (l', .notFound)
    | (l', .concludedOk) => (l', .concluded)

/-! ### Registry utilities (database/server-utils.js) -/

/-- `INACTIVITY_THRESHOLD_DAYS`: days before a server counts as inactive. -/
def INACTIVITY_THRESHOLD_DAYS : Int := 30

/-- Sweep statistics returned by `updateServerActiveStatus`. -/
structure SweepStats where
  updated : Nat
  active : Nat
  inactive : Nat
deriving DecidableEq, Repr

/-- `updateServerActiveStatus`: find every registration with
`lastAccessed < now - 30` that is still active, save each with
`isActive := false`, and report the demoted/active/inactive counts. -/
def updateServerActiveStatus (registry : List ExternalServer) (now : Int) :
    List ExternalServer × SweepStats :=
  let cutoff := now - INACTIVITY_THRESHOLD_DAYS
  let inactiveServers :=
    registry.filter (fun s => decide (s.lastAccessed < cutoff) && s.isActive)
  let registry' := inactiveServers.foldl
    (fun acc s => acc.map (fun r =>
        if r.guildId = s.guildId then { r with isActive := false } else r))
    registry
  let activeCount := (registry'.filter (fun s => s.isActive)).length
  let inactiveCount := (registry'.filter (fun s => !s.isActive)).length
  (registry',
   { updated := inactiveServers.length
     active := activeCount
     inactive := inactiveCount })

/-- `markServerActive`: refresh `lastAccessed` and force `isActive` on an
existing registration; reports `false` (and creates nothing) when the guild
is not registered. -/
def markServerActive (registry : List ExternalServer) (guildId : String)
    (now : Int) : List ExternalServer × Bool :=
  match findServer registry guildId with
  | none => (registry, false)
  | some _ =>
    (registry.map (fun s =>
        if s.guildId = guildId then
          { s with lastAccessed := now, isActive := true }
        else s),
     true)

/-! ### Configuration store (database/server-config-utils.js) -/

/-- Partial update payload accepted by `updateServerConfig`: a field that is
`none` was omitted from the update object; `some v` supplies the new value
(`v` itself may be `none`, i.e. an explicit null). -/
structure ConfigData where
  managerRoleId : Option (Option String) := none
  customerRoleId : Option (Option String) := none
  securityRoleId : Option (Option String) := none
  alertChannelId : Option (Option String) := none
  blacklistRoleId : Option (Option String) := none
deriving DecidableEq, Repr

/-- Apply an update payload over an existing row (`config.update(configData)`):
supplied fields overwrite, omitted fields are untouched. -/
def applyConfigData (c : ServerConfig) (d : ConfigData) : ServerConfig :=
  { c with
    managerRoleId := d.managerRoleId.getD c.managerRoleId
    customerRoleId := d.customerRoleId.getD c.customerRoleId
    securityRoleId := d.securityRoleId.getD c.securityRoleId
    alertChannelId := d.alertChannelId.getD c.alertChannelId
    blacklistRoleId := d.blacklistRoleId.getD c.blacklistRoleId }

/-- Build a fresh row from `{ serverId, ...configData }` over the model's
null column defaults (the `defaults` object of `findOrCreate`). -/
def configFromData (serverId : String) (d : ConfigData) : ServerConfig :=
  { serverId := serverId
    managerRoleId := d.managerRoleId.getD none
    customerRoleId := d.customerRoleId.getD none
    securityRoleId := d.securityRoleId.getD none
    alertChannelId := d.alertChannelId.getD none
    blacklistRoleId := d.blacklistRoleId.getD none }

/-- `updateServerConfig`: `findOrCreate` on the server id — when a row exists
the payload is merged over it with `update`, otherwise a fresh row is created
from the payload.  Returns the store and the resulting row. -/
def updateServerConfig (store : List ServerConfig) (serverId : String)
    (d : ConfigData) : List ServerConfig × ServerConfig :=
  match store.find? (fun c => c.serverId = serverId) with
  | some c =>
    let c' := applyConfigData c d
    (store.map (fun x => if x.serverId = serverId then c' else x), c')
  | none =>
    let c := configFromData serverId d
    (store ++ [c], c)

/-! ### Internal request creation (commands/request-security.js) -/

/-- Outcome of the `/request-security` command. -/
inductive InternalRequestOutcome
  | configError
  | noPermission
  | channelError
  | permissionError
  | sent
  | sendFailed
deriving DecidableEq, Repr

/-- `execute` of `/request-security`: requires the customer role, security
role and alert channel to be configured and the actor to hold the customer
role, then sends the alert embed (with Respond/Conclude buttons) to the alert
channel.  The command module never touches the `SecurityRequests` table; the
ledger is threaded through unchanged on every path to make that observable.
`channelOk`, `botPermsOk` and `sendOk` are the alert-channel fetch, bot
permission and send outcomes. -/
def executeRequestSecurity
    (customerRoleId securityRoleId alertChannelId : Option String)
    (memberRoleIds : List String) (ledger : List SecurityRequest)
    (channelOk botPermsOk sendOk : Bool) :
    List SecurityRequest × InternalRequestOutcome :=
  match customerRoleId, securityRoleId, alertChannelId with
  | some custRole, some _, some _ =>
    if ¬ custRole ∈ memberRoleIds then (ledger, .noPermission)
    else if !channelOk then (ledger, .channelError)
    else if !botPermsOk then (ledger, .permissionError)
    else if !sendOk then (ledger, .sendFailed)
    else (ledger, .sent)
  | _, _, _ => (ledger, .configError)

/-! ### External request creation (commands/request-external-security.js) -/

/-- Outcome of the `/request-external-security` command. -/
inductive ExternalRequestOutcome
  | mainNotConfigured
  | notRegistered
  | wrongChannel
  | missingRequiredRole
  | mainGuildUnreachable
  | alertChannelUnreachable
  | requestSent
deriving DecidableEq, Repr

/-- Combined state and outcome of an external request creation. -/
structure ExternalRequestResult where
  registry : List ExternalServer
  ledger : List SecurityRequest
  outcome : ExternalRequestOutcome
deriving DecidableEq, Repr

/-- `execute` of `/request-external-security`.  Checks, in source order:
main-server configuration present; the calling guild registered; the command
issued in the registration's designated channel; the actor holding one of
`allowedRoleIds` when that list is non-empty.  Then `markServerActive`
touches the registry, the confirmation and alert views are sent (the two
reachability flags), and the ledger entry is created with `status: pending`
and an empty responder list.  The source performs no `isBlacklisted` check on
this path. -/
def executeRequestExternalSecurity
    (mainGuildId alertChannelId securityRoleId : Option String)
    (registry : List ExternalServer) (ledger : List SecurityRequest)
    (guildId channelId : String) (memberRoleIds : List String)
    (location details contact requesterId requesterName interactionId : String)
    (localMessageId securityMessageId : String) (now : Int)
    (mainGuildOk alertChannelOk : Bool) : ExternalRequestResult :=
  match mainGuildId, alertChannelId, securityRoleId with
  | some _, some _, some _ =>
    match findServer registry guildId with
    | none => ⟨registry, ledger, .notRegistered⟩
    | some server =>
      if channelId ≠ server.channelId then ⟨registry, ledger, .wrongChannel⟩
      else
        let allowed := allowedRoleIdsGet server
        if allowed.length > 0 ∧ ¬ memberRoleIds.any (fun r => allowed.contains r) then
          ⟨registry, ledger, .missingRequiredRole⟩
        else
          let registry' := (markServerActive registry guildId now).1
          if !mainGuildOk then ⟨registry', ledger, .mainGuildUnreachable⟩
          else if !alertChannelOk then ⟨registry', ledger, .alertChannelUnreachable⟩
          else
            let req : SecurityRequest :=
              { requestId := interactionId
                isExternal := true
                requesterId := requesterId
                requesterName := requesterName
                location := location
                details := some details
                contact := some contact
                securityMessageId := some securityMessageId
                externalMessageId := some localMessageId
                status := .pending
                responders := some (jsonStringifyStringArray [])
                conclusionReason := none
                concludedById := none
                concludedByName := none
                concludedAt := none
                externalGuildId := some guildId }
            ⟨registry', ledger ++ [req], .requestSent⟩
  | _, _, _ => ⟨registry, ledger, .mainNotConfigured⟩

/-! ### Customer-server registration (commands/setup-security-channel.js) -/

/-- Outcome of the `/setup-security-channel` command. -/
inductive SetupOutcome
  | notTextChannel
  | missingBotPermission
  | mainServerRejected
  | channelUpdated
  | channelRegistered
deriving DecidableEq, Repr

/-- `execute` of `/setup-security-channel`: after the channel-type and bot
permission checks, the command refuses to run in the main security guild;
otherwise an existing registration is updated (channel, cached name,
`isActive := true`, fresh `lastAccessed`) or a new one is created with the
model defaults (not blacklisted, no allow-list). -/
def executeSetupSecurityChannel (mainGuildId : Option String)
    (registry : List ExternalServer) (guildId guildName channelId : String)
    (channelIsText botCanSend : Bool) (now : Int) :
    List ExternalServer × SetupOutcome :=
  if !channelIsText then (registry, .notTextChannel)
  else if !botCanSend then (registry, .missingBotPermission)
  else if some guildId = mainGuildId then (registry, .mainServerRejected)
  else
    match findServer registry guildId with
    | some _ =>
      (registry.map (fun s =>
          if s.guildId = guildId then
            { s with channelId := channelId
                     guildName := guildName
                     isActive := true
                     lastAccessed := now }
          else s),
       .channelUpdated)
    | none =>
      (registry ++ [{ guildId := guildId
                      guildName := guildName
                      channelId := channelId
                      isActive := true
                      isBlacklisted := false
                      blacklistReason := none
                      lastAccessed := now
                      allowedRoleIds := none }],
       .channelRegistered)

/-! ### Registry operation language

The operations through which the external-server registry evolves.  The
setup command is the only operation that creates a registration; the others
mutate existing rows.  `blacklist`/`unblacklist` correspond to
`blacklistServer`/`unblacklistServer`, whose bodies are not among the
provided sources; they are modelled from the spec
(`setBlacklist(guildId, reason) / clearBlacklist(guildId)` mutate the flags
of an existing registration) and from their caller `manage-blacklist.js`,
which requires the server to exist before either call. -/
inductive RegistryOp
  | setup (guildId guildName channelId : String)
      (channelIsText botCanSend : Bool) (now : Int)
  | touch (guildId : String) (now : Int)
  | sweep (now : Int)
  | blacklist (guildId reason : String)
  | unblacklist (guildId : String)
  | setAllowedRoles (guildId : String) (roles : List String)

/-- Apply one registry operation. -/
def applyRegistryOp (mainGuildId : Option String)
    (registry : List ExternalServer) : RegistryOp → List ExternalServer
  | .setup guildId guildName channelId channelIsText botCanSend now =>
    (executeSetupSecurityChannel mainGuildId registry guildId guildName
      channelId channelIsText botCanSend now).1
  | .touch guildId now => (markServerActive registry guildId now).1
  | .sweep now => (updateServerActiveStatus registry now).1
  | .blacklist guildId reason =>
    registry.map (fun s =>
      if s.guildId = guildId then
        { s with isBlacklisted := true, blacklistReason := some reason }
      else s)
  | .unblacklist guildId =>
    registry.map (fun s =>
      if s.guildId = guildId then
        { s with isBlacklisted := false, blacklistReason := none }
      else s)
  | .setAllowedRoles guildId roles =>
    registry.map (fun s =>
      if s.guildId = guildId then allowedRoleIdsSet s roles else s)

/-- Run a sequence of registry operations from the empty registry: the
reachable registry states. -/
def runRegistryOps (mainGuildId : Option String) (ops : List RegistryOp) :
    List ExternalServer :=
  ops.foldl (applyRegistryOp mainGuildId) []

/-! ### Sample rows for concrete evaluations -/

/-- A freshly created external request (pending, no responders recorded). -/
def sampleRequest : SecurityRequest :=
  { requestId := "R1"
    isExternal := true
    requesterId := "U0"
    requesterName := "Cust"
    location := "Lobby"
    details := some "dets"
    contact := some "call"
    securityMessageId := some "SM"
    externalMessageId := some "EM"
    status := .pending
    responders := none
    conclusionReason := none
    concludedById := none
    concludedByName := none
    concludedAt := none
    externalGuildId := some "G1" }

/-- A registered customer server in its default state. -/
def sampleServer : ExternalServer :=
  { guildId := "G1"
    guildName := "Cust"
    channelId := "C1"
    isActive := true
    isBlacklisted := false
    blacklistReason := none
    lastAccessed := 0
    allowedRoleIds := none }

/-- A fully configured organization server. -/
def sampleConfig : ServerConfig :=
  { serverId := "M"
    managerRoleId := some "MGR"
    customerRoleId := some "CUST"
    securityRoleId := some "SEC"
    alertChannelId := some "AC"
    blacklistRoleId := none }

/-- A partial configuration update supplying only the security role. -/
def sampleUpdate : ConfigData :=
  { securityRoleId := some (some "SEC2") }

/-- The sample request after a first conclusion with reason "resolved". -/
def sampleConcluded : SecurityRequest :=
  { sampleRequest with
      status := .concluded
      conclusionReason := some "resolved"
      concludedById := some "A"
      concludedByName := some "Alice"
      concludedAt := some 10 }

/-- The modelled serialization domain: strings with no control characters
(`JSON.stringify` would `\u`-escape those; every identifier the bot stores is
a decimal Discord snowflake, far inside this domain). -/
def charsPrintable (l : List String) : Prop :=
  ∀ s ∈ l, ∀ c ∈ s.data, 32 ≤ c.toNat

instance (l : List String) : Decidable (charsPrintable l) :=
  inferInstanceAs (Decidable (∀ s ∈ l, ∀ c ∈ s.data, 32 ≤ c.toNat))

/-! ### Serialization round-trip lemmas -/

/-- Rebuilding a string from its character data is the identity. -/
theorem mk_data (s : String) : String.mk s.data = s := rfl

/-- Scanning an escaped string body followed by a closing quote recovers the
original characters and hands the remainder to `scanAfter`. -/
theorem scanStr_escape (s : List Char) : ∀ (acc rest : List Char),
    scanStr (escapeChars s ++ '"' :: rest) acc
      = (scanAfter rest).map (fun items => String.mk (acc.reverse ++ s) :: items) := by
  induction s with
  | nil =>
    intro acc rest
    have hqb : ¬ ('"' : Char) = '\\' := by decide
    rw [escapeChars, List.nil_append, scanStr.eq_def]
    simp [hqb]
  | cons c cs ih =>
    intro acc rest
    by_cases h1 : c = '"' ∨ c = '\\'
    · have he : escapeChar c = ['\\', c] := by
        simp [escapeChar, h1]
      rw [escapeChars, he]
      simp only [List.cons_append, List.append_assoc, List.nil_append]
      rw [scanStr.eq_def]
      simp only [reduceIte]
      rw [ih (c :: acc) rest]
      simp [List.append_assoc]
    · push_neg at h1
      have he : escapeChar c = [c] := by
        simp [escapeChar, h1.1, h1.2]
      rw [escapeChars, he]
      simp only [List.cons_append, List.append_assoc, List.nil_append,
        List.singleton_append]
      rw [scanStr.eq_def]
      simp only [h1.1, h1.2, if_false, reduceIte]
      rw [ih (c :: acc) rest]
      simp [List.append_assoc]

/-- Scanning the encoded tail of an array recovers the remaining items. -/
theorem scanAfter_encodeItems : ∀ (l : List String),
    scanAfter (encodeItems l) = some l := by
  intro l
  induction l with
  | nil =>
    rw [encodeItems, scanAfter.eq_def]
    simp
  | cons s rest ih =>
    rw [encodeItems, scanAfter.eq_def]
    simp only [reduceIte]
    rw [scanStr_escape s.data [] (encodeItems rest)]
    simp [ih, mk_data]

/-- Parsing an encoded array of strings recovers the array. -/
theorem jsonParse_stringify (l : List String) :
    jsonParseStringArray (jsonStringifyStringArray l) = some l := by
  cases l with
  | nil => rfl
  | cons s rest =>
    show scanTop ('[' :: '"' :: (escapeChars s.data ++ '"' :: encodeItems rest))
      = some (s :: rest)
    rw [scanTop]
    simp only [reduceIte]
    rw [scanStr_escape s.data [] (encodeItems rest)]
    simp [scanAfter_encodeItems, mk_data]

/-- The encoder never produces the empty string (which would read back as an
empty list via the getter's falsiness shortcut). -/
theorem jsonStringify_ne_empty (l : List String) :
    jsonStringifyStringArray l ≠ "" := by
  cases l with
  | nil => decide
  | cons s rest =>
    intro h
    have h2 := congrArg String.data h
    simp [jsonStringifyStringArray] at h2

/-- Reading the responder column right after writing it yields the written
list. -/
theorem respondersGet_set (r : SecurityRequest) (v : List String) :
    respondersGet (respondersSet r v) = v := by
  simp [respondersGet, respondersSet, jsonStringify_ne_empty v,
    jsonParse_stringify]

/-- Overwriting the status column does not disturb the responder column. -/
theorem respondersGet_withStatus (r : SecurityRequest) (st : RequestStatus) :
    respondersGet { r with status := st } = respondersGet r := rfl

/-- Reading the allow-list column right after writing it yields the written
list. -/
theorem allowedRoleIdsGet_set (s : ExternalServer) (v : List String) :
    allowedRoleIdsGet (allowedRoleIdsSet s v) = v := by
  simp [allowedRoleIdsGet, allowedRoleIdsSet, jsonStringify_ne_empty v,
    jsonParse_stringify]

/-! ### Ledger lookup lemmas -/

/-- A found row satisfies the key predicate. -/
theorem findByPk_key (ledger : List SecurityRequest) (rid : String)
    (r : SecurityRequest) (h : findByPk ledger rid = some r) :
    r.requestId = rid := by
  have := List.find?_some h
  simpa using this

/-- Looking up the key that was just updated returns the updated row,
provided the update preserves the key of rows holding it. -/
theorem findByPk_updateByPk (ledger : List SecurityRequest) (rid : String)
    (f : SecurityRequest → SecurityRequest)
    (hf : ∀ r, r.requestId = rid → (f r).requestId = rid) :
    findByPk (updateByPk ledger rid f) rid = (findByPk ledger rid).map f := by
  induction ledger with
  | nil => rfl
  | cons r rest ih =>
    by_cases h : r.requestId = rid
    · simp [findByPk, updateByPk, List.find?_cons, h, hf r h]
    · simp only [findByPk, updateByPk, List.map_cons] at ih ⊢
      simp [List.find?_cons, h, ih]

/-! ### Sweep lemmas -/

/-- The save loop of the sweep — one by-key demotion per filtered row — is a
single map over the registry demoting every row whose key occurs among the
filtered rows. -/
theorem sweepFold (L : List ExternalServer) : ∀ (acc : List ExternalServer),
    L.foldl (fun acc s => acc.map (fun r =>
        if r.guildId = s.guildId then { r with isActive := false } else r)) acc
      = acc.map (fun r =>
          if r.guildId ∈ L.map (fun s => s.guildId)
          then { r with isActive := false } else r) := by
  induction L with
  | nil => intro acc; simp
  | cons s L ih =>
    intro acc
    rw [List.foldl_cons, ih, List.map_map]
    refine List.map_congr_left (fun r _ => ?_)
    by_cases hr : r.guildId = s.guildId
    · by_cases hL : r.guildId ∈ L.map (fun s => s.guildId) <;>
        simp [Function.comp, hr, hL]
    · by_cases hL : r.guildId ∈ L.map (fun s => s.guildId) <;>
        simp [Function.comp, hr, hL]

/-- Under unique keys, a key occurs among the filtered rows exactly when the
row itself passes the filter. -/
theorem mem_filter_keys_iff (registry : List ExternalServer)
    (h : (registry.map (fun s => s.guildId)).Nodup)
    (q : ExternalServer → Bool) (r : ExternalServer) (hr : r ∈ registry) :
    (r.guildId ∈ (registry.filter q).map (fun s => s.guildId)) ↔ q r = true := by
  constructor
  · intro hm
    obtain ⟨s, hs, hkey⟩ := List.mem_map.mp hm
    obtain ⟨hsreg, hq⟩ := List.mem_filter.mp hs
    have : s = r := List.inj_on_of_nodup_map h hsreg hr hkey
    exact this ▸ hq
  · intro hq
    exact List.mem_map.mpr ⟨r, List.mem_filter.mpr ⟨hr, hq⟩, rfl⟩

/-! ### Registry reachability lemmas -/

/-- No single registry operation introduces a registration for the main
guild: the setup command rejects the main guild before writing, and every
other operation only rewrites rows in place, preserving their keys. -/
theorem applyRegistryOp_no_main (m : String) (regs : List ExternalServer)
    (h : ∀ s ∈ regs, s.guildId ≠ m) (op : RegistryOp) :
    ∀ s ∈ applyRegistryOp (some m) regs op, s.guildId ≠ m := by
  cases op with
  | setup gid gname cid ct bs now =>
    intro s hs
    simp only [applyRegistryOp, executeSetupSecurityChannel] at hs
    cases ct with
    | false => simp at hs; exact h s hs
    | true =>
      cases bs with
      | false => simp at hs; exact h s hs
      | true =>
        by_cases hgid : some gid = some m
        · simp [hgid] at hs
          exact h s hs
        · have hgm : gid ≠ m := fun hh => hgid (by rw [hh])
          simp only [hgid, Bool.not_true, ite_false, if_false,
            Bool.false_eq_true] at hs
          cases hfind : findServer regs gid with
          | some t =>
            rw [hfind] at hs
            simp at hs
            obtain ⟨t2, ht2, rfl⟩ := hs
            split <;> exact h t2 ht2
          | none =>
            rw [hfind] at hs
            simp at hs
            rcases hs with hs | hs
            · exact h s hs
            · rw [hs]
              exact hgm
  | touch gid now =>
    intro s hs
    simp only [applyRegistryOp, markServerActive] at hs
    cases hfind : findServer regs gid with
    | some t =>
      rw [hfind] at hs
      simp at hs
      obtain ⟨t2, ht2, rfl⟩ := hs
      split <;> exact h t2 ht2
    | none =>
      rw [hfind] at hs
      simp at hs
      exact h s hs
  | sweep now =>
    intro s hs
    simp only [applyRegistryOp, updateServerActiveStatus] at hs
    rw [sweepFold] at hs
    simp at hs
    obtain ⟨t, ht, rfl⟩ := hs
    split <;> exact h t ht
  | blacklist gid reason =>
    intro s hs
    simp only [applyRegistryOp] at hs
    simp at hs
    obtain ⟨t, ht, rfl⟩ := hs
    split <;> exact h t ht
  | unblacklist gid =>
    intro s hs
    simp only [applyRegistryOp] at hs
    simp at hs
    obtain ⟨t, ht, rfl⟩ := hs
    split <;> exact h t ht
  | setAllowedRoles gid roles =>
    intro s hs
    simp only [applyRegistryOp] at hs
    simp at hs
    obtain ⟨t, ht, rfl⟩ := hs
    split <;> exact h t ht

/-- The main-guild exclusion is preserved along any operation sequence. -/
theorem foldRegistryOps_no_main (m : String) (ops : List RegistryOp) :
    ∀ (regs : List ExternalServer), (∀ s ∈ regs, s.guildId ≠ m) →
      ∀ s ∈ ops.foldl (applyRegistryOp (some m)) regs, s.guildId ≠ m := by
  induction ops with
  | nil => intro regs h; simpa using h
  | cons op ops ih =>
    intro regs h
    rw [List.foldl_cons]
    exact ih _ (applyRegistryOp_no_main m regs h op)

/-! ### Handler characterization lemmas -/

/-- On a request that exists, the conclude modal handler always reports
success and overwrites the conclusion row, whatever the current status. -/
theorem concludeModal_characterization (ledger : List SecurityRequest)
    (rid reason byId byName : String) (now : Int) (r : SecurityRequest)
    (hfind : findByPk ledger rid = some r) :
    handleExternalConcludeModalSubmit ledger rid reason byId byName now
      = (updateByPk ledger rid (fun x =>
          { x with status := .concluded
                   conclusionReason := some reason
                   concludedById := some byId
                   concludedByName := some byName
                   concludedAt := some now }), .concludedOk)
    ∧ findByPk (handleExternalConcludeModalSubmit ledger rid reason byId byName now).1 rid
      = some { r with status := .concluded
                      conclusionReason := some reason
                      concludedById := some byId
                      concludedByName := some byName
                      concludedAt := some now } := by
  have h1 : handleExternalConcludeModalSubmit ledger rid reason byId byName now
      = (updateByPk ledger rid (fun x =>
          { x with status := .concluded
                   conclusionReason := some reason
                   concludedById := some byId
                   concludedByName := some byName
                   concludedAt := some now }), .concludedOk) := by
    simp [handleExternalConcludeModalSubmit, hfind]
  refine ⟨h1, ?_⟩
  rw [h1]
  rw [findByPk_updateByPk ledger rid
        (fun x => { x with status := .concluded
                           conclusionReason := some reason
                           concludedById := some byId
                           concludedByName := some byName
                           concludedAt := some now })
        (fun x hx => hx),
      hfind]
  rfl

/-- On a request that exists, the respond handler with intact views appends a
new responder and forces `status := responding`. -/
theorem respond_added (ledger : List SecurityRequest) (rid uid : String)
    (r : SecurityRequest) (hfind : findByPk ledger rid = some r)
    (hmem : ¬ uid ∈ respondersGet r) :
    handleExternalRespondButton ledger rid uid true true
      = (updateByPk ledger rid (fun _ =>
          { respondersSet r (respondersGet r ++ [uid]) with
              status := .responding }), .added) := by
  simp [handleExternalRespondButton, hfind, hmem]

/-- On a request that exists, a responder already recorded is a benign no-op:
the ledger is untouched and the handler reports "already responding". -/
theorem respond_already (ledger : List SecurityRequest) (rid uid : String)
    (r : SecurityRequest) (hfind : findByPk ledger rid = some r)
    (hmem : uid ∈ respondersGet r) :
    handleExternalRespondButton ledger rid uid true true
      = (ledger, .alreadyResponding) := by
  simp [handleExternalRespondButton, hfind, hmem]

/-! ### Claim theorems -/

/-- C1 (counterexample): conclude is not terminal in the code.  A concrete
request concluded with reason "resolved" accepts a second conclude submission
with reason "again": the handler reports success again and the stored
`conclusionReason` is overwritten, contradicting the claim that the second
submission is rejected and leaves the original conclusion fields unchanged. -/
theorem C1_counterexample :
    (handleExternalConcludeModalSubmit [sampleRequest] "R1" "resolved" "A" "Alice" 10).2
        = .concludedOk
    ∧ ((handleExternalConcludeModalSubmit [sampleRequest] "R1" "resolved" "A" "Alice" 10).1.map
        (fun r => r.conclusionReason)) = [some "resolved"]
    ∧ (handleExternalConcludeModalSubmit
        (handleExternalConcludeModalSubmit [sampleRequest] "R1" "resolved" "A" "Alice" 10).1
        "R1" "again" "B" "Bob" 20).2 = .concludedOk
    ∧ ((handleExternalConcludeModalSubmit
        (handleExternalConcludeModalSubmit [sampleRequest] "R1" "resolved" "A" "Alice" 10).1
        "R1" "again" "B" "Bob" 20).1.map (fun r => r.conclusionReason)) = [some "again"] := by
  decide

/-- C1 (amended): a second conclude submission on a request whose status is
already `concluded` is not rejected: it is processed like the first one and
overwrites `conclusionReason`, `concludedById`, `concludedByName` and
`concludedAt` with the new submission's values (status stays `concluded`). -/
theorem C1_reconclude_overwrites (ledger : List SecurityRequest)
    (rid reason byId byName : String) (now : Int) (r : SecurityRequest)
    (hfind : findByPk ledger rid = some r) (hstat : r.status = .concluded) :
    (handleExternalConcludeModalSubmit ledger rid reason byId byName now).2
        = .concludedOk
    ∧ findByPk (handleExternalConcludeModalSubmit ledger rid reason byId byName now).1 rid
        = some { r with status := .concluded,
                        conclusionReason := some reason,
                        concludedById := some byId,
                        concludedByName := some byName,
                        concludedAt := some now } := by
  obtain ⟨h1, h2⟩ :=
    concludeModal_characterization ledger rid reason byId byName now r hfind
  exact ⟨by rw [h1], h2⟩

/-- C1 (witness): the amended theorem applied to a concluded request. -/
theorem C1_witness :
    (findByPk [sampleConcluded] "R1" = some sampleConcluded
     ∧ sampleConcluded.status = .concluded)
    ∧ ((handleExternalConcludeModalSubmit [sampleConcluded] "R1" "again" "B"
          "Bob" 20).2 = .concludedOk
       ∧ findByPk (handleExternalConcludeModalSubmit [sampleConcluded] "R1"
            "again" "B" "Bob" 20).1 "R1"
          = some { sampleConcluded with
                     status := .concluded
                     conclusionReason := some "again"
                     concludedById := some "B"
                     concludedByName := some "Bob"
                     concludedAt := some 20 }) :=
  ⟨⟨by decide, by decide⟩,
   C1_reconclude_overwrites [sampleConcluded] "R1" "again" "B" "Bob" 20
     sampleConcluded (by decide) (by decide)⟩

/-- C2 (code_bug evidence): a registered but blacklisted customer server, in
its designated channel with an empty allow-list, is *not* rejected: the
external request creation succeeds and writes a ledger entry, although
`manage-blacklist` promises blacklisted servers "will no longer be able to
request security services".  No `isBlacklisted` check exists on the creation
path. -/
theorem C2_blacklisted_server_not_rejected :
    (executeRequestExternalSecurity (some "M") (some "AC") (some "SEC")
        [{ sampleServer with isBlacklisted := true, blacklistReason := some "abuse" }]
        [] "G1" "C1" [] "Lobby" "Sus" "555" "U1" "User" "R9" "LM" "SM" 5
        true true).outcome = .requestSent
    ∧ ((executeRequestExternalSecurity (some "M") (some "AC") (some "SEC")
        [{ sampleServer with isBlacklisted := true, blacklistReason := some "abuse" }]
        [] "G1" "C1" [] "Lobby" "Sus" "555" "U1" "User" "R9" "LM" "SM" 5
        true true).ledger.map (fun r => r.requestId)) = ["R9"] := by
  decide

/-- C3 (counterexample): a respond action on a concluded request moves
`status` back to `responding`: the handler does not inspect the current
status before assigning it.  This contradicts the claim that status never
moves backward. -/
theorem C3_counterexample :
    (handleExternalRespondButton [sampleConcluded] "R1" "U2" true true).2 = .added
    ∧ ((handleExternalRespondButton [sampleConcluded] "R1" "U2" true true).1.map
        (fun r => r.status)) = [.responding] := by
  decide

/-- C3 (amended): the status transitions of the two mutating handlers are:
a respond that does not add a responder leaves the ledger untouched; a
respond that adds one always sets `status := responding` — including on a
request already `concluded`, which is a backward move; a conclude submission
always sets `status := concluded`.  Apart from the concluded-to-responding
reversal through respond, status only moves forward. -/
theorem C3_status_transitions (ledger : List SecurityRequest)
    (rid uid reason byId byName : String) (now : Int) (e f : Bool)
    (r : SecurityRequest) (hfind : findByPk ledger rid = some r) :
    ((handleExternalRespondButton ledger rid uid e f).2 ≠ .added →
        (handleExternalRespondButton ledger rid uid e f).1 = ledger)
    ∧ ((handleExternalRespondButton ledger rid uid e f).2 = .added →
        findByPk (handleExternalRespondButton ledger rid uid e f).1 rid
          = some { respondersSet r (respondersGet r ++ [uid]) with
                     status := .responding })
    ∧ ((handleExternalConcludeModalSubmit ledger rid reason byId byName now).2
          = .concludedOk
       ∧ findByPk
          (handleExternalConcludeModalSubmit ledger rid reason byId byName now).1 rid
          = some { r with status := .concluded,
                          conclusionReason := some reason,
                          concludedById := some byId,
                          concludedByName := some byName,
                          concludedAt := some now }) := by
  have hkey := findByPk_key ledger rid r hfind
  obtain ⟨hc1, hc2⟩ :=
    concludeModal_characterization ledger rid reason byId byName now r hfind
  refine ⟨?_, ?_, by rw [hc1], hc2⟩
  · intro hne
    cases e with
    | false => simp [handleExternalRespondButton, hfind]
    | true =>
      cases f with
      | false => simp [handleExternalRespondButton, hfind]
      | true =>
        by_cases hmem : uid ∈ respondersGet r
        · rw [respond_already ledger rid uid r hfind hmem]
        · rw [respond_added ledger rid uid r hfind hmem] at hne
          simp at hne
  · intro hadd
    cases e with
    | false => simp [handleExternalRespondButton, hfind] at hadd
    | true =>
      cases f with
      | false => simp [handleExternalRespondButton, hfind] at hadd
      | true =>
        by_cases hmem : uid ∈ respondersGet r
        · rw [respond_already ledger rid uid r hfind hmem] at hadd
          simp at hadd
        · rw [respond_added ledger rid uid r hfind hmem]
          rw [findByPk_updateByPk ledger rid
                (fun _ => { respondersSet r (respondersGet r ++ [uid]) with
                              status := .responding })
                (fun x _ => hkey),
              hfind]
          rfl

/-- C3 (witness): the amended theorem applied to a pending request. -/
theorem C3_witness :
    (findByPk [sampleRequest] "R1" = some sampleRequest)
    ∧ (((handleExternalRespondButton [sampleRequest] "R1" "U1" true true).2 ≠ .added →
          (handleExternalRespondButton [sampleRequest] "R1" "U1" true true).1
            = [sampleRequest])
       ∧ ((handleExternalRespondButton [sampleRequest] "R1" "U1" true true).2 = .added →
          findByPk (handleExternalRespondButton [sampleRequest] "R1" "U1" true true).1 "R1"
            = some { respondersSet sampleRequest
                       (respondersGet sampleRequest ++ ["U1"]) with
                       status := .responding })
       ∧ ((handleExternalConcludeModalSubmit [sampleRequest] "R1" "fin" "A" "Alice" 3).2
            = .concludedOk
          ∧ findByPk
              (handleExternalConcludeModalSubmit [sampleRequest] "R1" "fin" "A" "Alice" 3).1 "R1"
            = some { sampleRequest with
                       status := .concluded
                       conclusionReason := some "fin"
                       concludedById := some "A"
                       concludedByName := some "Alice"
                       concludedAt := some 3 })) :=
  ⟨by decide,
   C3_status_transitions [sampleRequest] "R1" "U1" "fin" "A" "Alice" 3 true true
     sampleRequest (by decide)⟩

/-- C4 (counterexample): a fully successful internal request creation (roles
and channel configured, actor holds the customer role, alert delivered)
leaves the ledger exactly as it was — no `isExternal=false` entry is
persisted, contradicting the claim. -/
theorem C4_counterexample :
    executeRequestSecurity (some "CUST") (some "SEC") (some "AC") ["CUST"] []
        true true true = ([], .sent) := by
  decide

/-- C4 (amended): internal request creation persists no ledger entry on any
path: `/request-security` renders the alert message (which doubles as the
request's only record) and never writes to the `SecurityRequests` table; only
external requests create ledger entries. -/
theorem C4_internal_request_no_ledger_write
    (customerRoleId securityRoleId alertChannelId : Option String)
    (memberRoleIds : List String) (ledger : List SecurityRequest)
    (channelOk botPermsOk sendOk : Bool) :
    (executeRequestSecurity customerRoleId securityRoleId alertChannelId
        memberRoleIds ledger channelOk botPermsOk sendOk).1 = ledger := by
  unfold executeRequestSecurity
  split
  · split_ifs <;> rfl
  · rfl

/-- C5 (counterexample): a conclude modal submission from an actor without
the security role is processed all the same: the request is concluded and the
ledger mutated, contradicting the claim that such a submission is rejected
with no ledger mutation. -/
theorem C5_counterexample :
    (modalSubmitExtConclude [sampleRequest] ["extconclude", "modal", "R1", "G1"]
        false "done" "A" "Alice" 10).2 = .concluded
    ∧ ((modalSubmitExtConclude [sampleRequest] ["extconclude", "modal", "R1", "G1"]
        false "done" "A" "Alice" 10).1.map (fun r => r.status)) = [.concluded] := by
  decide

/-- C5 (amended): the security-role precondition is enforced only at the
initial button click — a clicker without the role is rejected with no ledger
change — while the conclude modal submission is dispatched with no role
re-check: a submission by an actor who does not (or no longer) hold(s) the
role still applies the full conclusion mutation. -/
theorem C5_role_checked_only_at_click (secRole : String)
    (ledger : List SecurityRequest) (parts memberRoleIds : List String)
    (uid : String) (e f : Bool) (rid gid reason byId byName : String)
    (now : Int) (r : SecurityRequest)
    (hlen : parts.length = 3) (hrole : ¬ secRole ∈ memberRoleIds)
    (hfind : findByPk ledger rid = some r) :
    buttonExtDispatch (some secRole) ledger parts memberRoleIds uid e f
      = (ledger, .noPermission)
    ∧ modalSubmitExtConclude ledger ["extconclude", "modal", rid, gid] false
        reason byId byName now
      = (updateByPk ledger rid (fun x =>
          { x with status := .concluded,
                   conclusionReason := some reason,
                   concludedById := some byId,
                   concludedByName := some byName,
                   concludedAt := some now }), .concluded) := by
  obtain ⟨hc1, _⟩ :=
    concludeModal_characterization ledger rid reason byId byName now r hfind
  constructor
  · simp [buttonExtDispatch, hlen, hrole]
  · simp only [modalSubmitExtConclude]
    rw [if_neg (by simp)]
    simp only [List.get?, Option.getD_some]
    rw [hc1]

/-- C5 (witness): the amended theorem at a concrete pending request, with an
actor holding no roles at all. -/
theorem C5_witness :
    ((["extrespond", "R1", "G1"] : List String).length = 3
     ∧ ¬ "SEC" ∈ ([] : List String)
     ∧ findByPk [sampleRequest] "R1" = some sampleRequest)
    ∧ (buttonExtDispatch (some "SEC") [sampleRequest] ["extrespond", "R1", "G1"]
          [] "U1" true true = ([sampleRequest], .noPermission)
       ∧ modalSubmitExtConclude [sampleRequest] ["extconclude", "modal", "R1", "G1"]
          false "done" "A" "Alice" 10
          = (updateByPk [sampleRequest] "R1" (fun x =>
              { x with status := .concluded,
                       conclusionReason := some "done",
                       concludedById := some "A",
                       concludedByName := some "Alice",
                       concludedAt := some 10 }), .concluded)) :=
  ⟨⟨by decide, by decide, by decide⟩,
   C5_role_checked_only_at_click "SEC" [sampleRequest] ["extrespond", "R1", "G1"]
     [] "U1" true true "R1" "G1" "done" "A" "Alice" 10 sampleRequest
     (by decide) (by decide) (by decide)⟩

/-- C6: `addResponder` is idempotent.  A second respond by the same user is a
benign "already responding" no-op that leaves the ledger exactly as after the
first call; starting from an empty responder list, the first call adds the
user (responder set of size one) and transitions the status once. -/
theorem C6_addResponder_idempotent (ledger : List SecurityRequest)
    (rid uid : String) (r : SecurityRequest)
    (hfind : findByPk ledger rid = some r) :
    (handleExternalRespondButton
        (handleExternalRespondButton ledger rid uid true true).1 rid uid true true
      = ((handleExternalRespondButton ledger rid uid true true).1,
         if (handleExternalRespondButton ledger rid uid true true).2 = .added
         then .alreadyResponding
         else (handleExternalRespondButton ledger rid uid true true).2))
    ∧ (respondersGet r = [] →
        (handleExternalRespondButton ledger rid uid true true).2 = .added
        ∧ ((findByPk (handleExternalRespondButton ledger rid uid true true).1 rid).map
            respondersGet) = some [uid]
        ∧ ((findByPk (handleExternalRespondButton ledger rid uid true true).1 rid).map
            (fun x => x.status)) = some .responding) := by
  have hkey := findByPk_key ledger rid r hfind
  by_cases hmem : uid ∈ respondersGet r
  · rw [respond_already ledger rid uid r hfind hmem]
    refine ⟨?_, ?_⟩
    · simp
      exact respond_already ledger rid uid r hfind hmem
    · intro hempty
      rw [hempty] at hmem
      simp at hmem
  · have hadd := respond_added ledger rid uid r hfind hmem
    have hfind1 : findByPk (handleExternalRespondButton ledger rid uid true true).1 rid
        = some { respondersSet r (respondersGet r ++ [uid]) with
                   status := .responding } := by
      rw [hadd]
      rw [findByPk_updateByPk ledger rid
            (fun _ => { respondersSet r (respondersGet r ++ [uid]) with
                          status := .responding })
            (fun x _ => hkey),
          hfind]
      rfl
    have hmem1 : uid ∈ respondersGet
        { respondersSet r (respondersGet r ++ [uid]) with status := .responding } := by
      rw [respondersGet_withStatus, respondersGet_set]
      simp
    have hsecond : handleExternalRespondButton
        (handleExternalRespondButton ledger rid uid true true).1 rid uid true true
        = ((handleExternalRespondButton ledger rid uid true true).1,
           .alreadyResponding) :=
      respond_already (handleExternalRespondButton ledger rid uid true true).1
        rid uid
        { respondersSet r (respondersGet r ++ [uid]) with status := .responding }
        hfind1 hmem1
    refine ⟨?_, ?_⟩
    · rw [hsecond, hadd]
      simp
    · intro hempty
      refine ⟨by rw [hadd], ?_, ?_⟩
      · rw [hfind1]
        have hv : respondersGet
            { respondersSet r (respondersGet r ++ [uid]) with
                status := .responding } = [uid] := by
          rw [respondersGet_withStatus, respondersGet_set, hempty]
          rfl
        simp [hv]
      · rw [hfind1]
        rfl

/-- C6 (witness): idempotence at a concrete fresh request. -/
theorem C6_witness :
    (findByPk [sampleRequest] "R1" = some sampleRequest)
    ∧ ((handleExternalRespondButton
          (handleExternalRespondButton [sampleRequest] "R1" "U1" true true).1
          "R1" "U1" true true
        = ((handleExternalRespondButton [sampleRequest] "R1" "U1" true true).1,
           if (handleExternalRespondButton [sampleRequest] "R1" "U1" true true).2 = .added
           then .alreadyResponding
           else (handleExternalRespondButton [sampleRequest] "R1" "U1" true true).2))
       ∧ (respondersGet sampleRequest = [] →
          (handleExternalRespondButton [sampleRequest] "R1" "U1" true true).2 = .added
          ∧ ((findByPk (handleExternalRespondButton [sampleRequest] "R1" "U1" true true).1
                "R1").map respondersGet) = some ["U1"]
          ∧ ((findByPk (handleExternalRespondButton [sampleRequest] "R1" "U1" true true).1
                "R1").map (fun x => x.status)) = some .responding)) :=
  ⟨by decide,
   C6_addResponder_idempotent [sampleRequest] "R1" "U1" sampleRequest (by decide)⟩

/-- C7: the sweep demotes exactly the active registrations whose
`lastAccessed` is strictly older than `now` minus 30 days, leaves every other
registration untouched (the result is a pointwise map), and an immediate
second run with no intervening activity reports a demoted count of 0. -/
theorem C7_sweepInactive_exact (registry : List ExternalServer) (now : Int)
    (h : (registry.map (fun s => s.guildId)).Nodup) :
    (updateServerActiveStatus registry now).1
      = registry.map (fun r =>
          if r.isActive = true ∧ r.lastAccessed < now - INACTIVITY_THRESHOLD_DAYS
          then { r with isActive := false } else r)
    ∧ (updateServerActiveStatus (updateServerActiveStatus registry now).1 now).2.updated
        = 0 := by
  have hmain : (updateServerActiveStatus registry now).1
      = registry.map (fun r =>
          if r.isActive = true ∧ r.lastAccessed < now - INACTIVITY_THRESHOLD_DAYS
          then { r with isActive := false } else r) := by
    simp only [updateServerActiveStatus]
    rw [sweepFold]
    refine List.map_congr_left (fun r hr => ?_)
    have hiff := mem_filter_keys_iff registry h
      (fun s => decide (s.lastAccessed < now - INACTIVITY_THRESHOLD_DAYS) && s.isActive)
      r hr
    by_cases hp : r.isActive = true ∧ r.lastAccessed < now - INACTIVITY_THRESHOLD_DAYS
    · rw [if_pos ?_, if_pos hp]
      rw [hiff]
      simp [hp.1, hp.2]
    · rw [if_neg ?_, if_neg hp]
      rw [hiff]
      simp only [Bool.and_eq_true, decide_eq_true_eq]
      rintro ⟨hlt, hact⟩
      exact hp ⟨hact, hlt⟩
  have hupd : ∀ (L : List ExternalServer),
      (updateServerActiveStatus L now).2.updated
        = (L.filter (fun s =>
            decide (s.lastAccessed < now - INACTIVITY_THRESHOLD_DAYS) && s.isActive)).length :=
    fun L => rfl
  have hnil : ((updateServerActiveStatus registry now).1.filter
      (fun s => decide (s.lastAccessed < now - INACTIVITY_THRESHOLD_DAYS) && s.isActive))
      = [] := by
    rw [hmain, List.filter_eq_nil_iff]
    intro a ha
    obtain ⟨r, hr, rfl⟩ := List.mem_map.mp ha
    by_cases hp : r.isActive = true ∧ r.lastAccessed < now - INACTIVITY_THRESHOLD_DAYS
    · rw [if_pos hp]
      simp
    · rw [if_neg hp]
      simp only [Bool.and_eq_true, decide_eq_true_eq]
      rintro ⟨hlt, hact⟩
      exact hp ⟨hact, hlt⟩
  refine ⟨hmain, ?_⟩
  rw [hupd, hnil]
  rfl

/-- C7 (witness): a two-server registry with one stale entry; the sweep at
day 0 with the 30-day threshold demotes exactly the stale one. -/
theorem C7_witness :
    (([{ sampleServer with lastAccessed := -100 },
       { sampleServer with guildId := "G2" }].map (fun s => s.guildId)).Nodup)
    ∧ ((updateServerActiveStatus
          [{ sampleServer with lastAccessed := -100 },
           { sampleServer with guildId := "G2" }] 0).1
        = [{ sampleServer with lastAccessed := -100 },
           { sampleServer with guildId := "G2" }].map (fun r =>
            if r.isActive = true ∧ r.lastAccessed < 0 - INACTIVITY_THRESHOLD_DAYS
            then { r with isActive := false } else r)
       ∧ (updateServerActiveStatus
            (updateServerActiveStatus
              [{ sampleServer with lastAccessed := -100 },
               { sampleServer with guildId := "G2" }] 0).1 0).2.updated = 0) :=
  ⟨by decide,
   C7_sweepInactive_exact
     [{ sampleServer with lastAccessed := -100 },
      { sampleServer with guildId := "G2" }] 0 (by decide)⟩

/-- C8: the configuration upsert preserves omitted fields.  When a row
exists, every field not supplied in the update keeps its previous value (an
omitted field is never cleared); when no row exists, a fresh one is created
from the supplied fields over null defaults. -/
theorem C8_config_upsert_preserves_omitted (store : List ServerConfig)
    (sid : String) (d : ConfigData) :
    (∀ c, store.find? (fun x => x.serverId = sid) = some c →
        ((updateServerConfig store sid d).2.serverId = c.serverId
        ∧ (d.managerRoleId = none →
            (updateServerConfig store sid d).2.managerRoleId = c.managerRoleId)
        ∧ (d.customerRoleId = none →
            (updateServerConfig store sid d).2.customerRoleId = c.customerRoleId)
        ∧ (d.securityRoleId = none →
            (updateServerConfig store sid d).2.securityRoleId = c.securityRoleId)
        ∧ (d.alertChannelId = none →
            (updateServerConfig store sid d).2.alertChannelId = c.alertChannelId)
        ∧ (d.blacklistRoleId = none →
            (updateServerConfig store sid d).2.blacklistRoleId = c.blacklistRoleId)))
    ∧ (store.find? (fun x => x.serverId = sid) = none →
        updateServerConfig store sid d
          = (store ++ [configFromData sid d], configFromData sid d)) := by
  constructor
  · intro c hc
    simp only [updateServerConfig, hc]
    refine ⟨rfl, ?_, ?_, ?_, ?_, ?_⟩ <;> intro hnone <;>
      simp [applyConfigData, hnone]
  · intro hc
    simp [updateServerConfig, hc]

/-- C8 (witness): updating only the security role of an existing
configuration leaves the manager role untouched. -/
theorem C8_witness :
    ([sampleConfig].find? (fun x => x.serverId = "M") = some sampleConfig
     ∧ sampleUpdate.managerRoleId = none)
    ∧ ((updateServerConfig [sampleConfig] "M" sampleUpdate).2.serverId
          = sampleConfig.serverId
       ∧ (updateServerConfig [sampleConfig] "M" sampleUpdate).2.managerRoleId
          = sampleConfig.managerRoleId) :=
  ⟨⟨by decide, rfl⟩,
   ⟨((C8_config_upsert_preserves_omitted [sampleConfig] "M" sampleUpdate).1
      sampleConfig (by decide)).1,
    ((C8_config_upsert_preserves_omitted [sampleConfig] "M" sampleUpdate).1
      sampleConfig (by decide)).2.1 rfl⟩⟩

/-- C9: the JSON-text-column accessors round-trip.  A record whose list
column was never set reads as the empty list (not null, not an error), and
writing any list of identifiers then reading it back yields the same list in
the same order, for both the `responders` and the `allowedRoleIds` column. -/
theorem C9_list_columns_roundtrip (r : SecurityRequest) (s : ExternalServer)
    (l1 l2 : List String) (hr : r.responders = none) (hs : s.allowedRoleIds = none)
    (h1 : charsPrintable l1) (h2 : charsPrintable l2) :
    respondersGet r = [] ∧ allowedRoleIdsGet s = []
    ∧ respondersGet (respondersSet r l1) = l1
    ∧ allowedRoleIdsGet (allowedRoleIdsSet s l2) = l2 := by
  refine ⟨?_, ?_, respondersGet_set r l1, allowedRoleIdsGet_set s l2⟩
  · simp [respondersGet, hr]
  · simp [allowedRoleIdsGet, hs]

/-- C9 (witness): the round-trip at concrete snowflake-style identifiers. -/
theorem C9_witness :
    (sampleRequest.responders = none ∧ sampleServer.allowedRoleIds = none
     ∧ charsPrintable ["111", "222"] ∧ charsPrintable ["333"])
    ∧ (respondersGet sampleRequest = [] ∧ allowedRoleIdsGet sampleServer = []
       ∧ respondersGet (respondersSet sampleRequest ["111", "222"]) = ["111", "222"]
       ∧ allowedRoleIdsGet (allowedRoleIdsSet sampleServer ["333"]) = ["333"]) :=
  ⟨⟨rfl, rfl, by decide, by decide⟩,
   C9_list_columns_roundtrip sampleRequest sampleServer ["111", "222"] ["333"]
     rfl rfl (by decide) (by decide)⟩

/-- C10: the organization's main server can never appear in the external
server registry.  The setup command refuses to run in the main guild (no
outcome that writes a registration is reachable there and the registry is
returned unchanged), and along every sequence of registry operations starting
from the empty registry, no registration ever carries the main guild id. -/
theorem C10_main_server_never_registered (m : String) :
    (∀ (registry : List ExternalServer) (gname cid : String) (ct bs : Bool)
        (now : Int),
        (executeSetupSecurityChannel (some m) registry m gname cid ct bs now).1
            = registry
        ∧ (executeSetupSecurityChannel (some m) registry m gname cid ct bs now).2
            ≠ .channelUpdated
        ∧ (executeSetupSecurityChannel (some m) registry m gname cid ct bs now).2
            ≠ .channelRegistered)
    ∧ (∀ (ops : List RegistryOp),
        (runRegistryOps (some m) ops).all (fun s => s.guildId != m) = true) := by
  constructor
  · intro registry gname cid ct bs now
    cases ct <;> cases bs <;> simp [executeSetupSecurityChannel]
  · intro ops
    rw [List.all_eq_true]
    intro s hs
    have hmem := foldRegistryOps_no_main m ops [] (by simp) s hs
    simpa using hmem

end Arcani
